import Mathlib

/-!
A shallow embedding of the lab-request backend (`backend/api` of the
repository): the data model (`models.py`), the request-level operations of
`LabRequestViewSet` (`views.py`), the create serializer (`serializers.py`),
the `pre_save` signal handlers (`signals.py`) and the AI interpretation
service (`services/ai_service.py`), together with theorems settling the
spec claims about them.

JSON objects (the `payment` and `results` JSON fields) are embedded as
association lists with Python-`dict` update semantics (assignment replaces
the value of an existing key in place, otherwise appends).  Monetary
amounts are embedded as rationals.
-/

namespace LIMS

/-! ## Association-list dictionaries (Python `dict` semantics) -/

/-- Python `d.get(k)` on a dict: the value at the matching key, if any. -/
def dictGet? {α : Type} : List (String × α) → String → Option α
  | [], _ => none
  | kv :: rest, k => if kv.1 = k then some kv.2 else dictGet? rest k

/-- Python `d.get(k, dflt)`. -/
def dictGetD {α : Type} (l : List (String × α)) (k : String) (dflt : α) : α :=
  (dictGet? l k).getD dflt

/-- Python `k in d`. -/
def dictHas {α : Type} : List (String × α) → String → Bool
  | [], _ => false
  | kv :: rest, k => kv.1 = k || dictHas rest k

/-- Python `d[k] = v`: replace the value of an existing key in place, otherwise
append the new binding at the end (Python dicts preserve insertion order). -/
def dictSet {α : Type} (l : List (String × α)) (k : String) (v : α) :
    List (String × α) :=
  if dictHas l k then
    l.map (fun kv => if kv.1 = k then (k, v) else kv)
  else
    l ++ [(k, v)]

theorem dictGet?_map_set {α : Type} (l : List (String × α)) (k : String)
    (v : α) (h : dictHas l k = true) :
    dictGet? (l.map (fun kv => if kv.1 = k then (k, v) else kv)) k = some v := by
  induction l with
  | nil => simp [dictHas] at h
  | cons x xs ih =>
    by_cases hx : x.1 = k
    · simp [dictGet?, hx]
    · simp only [dictHas, Bool.or_eq_true, decide_eq_true_eq] at h
      rcases h with h | h
      · exact absurd h hx
      · simpa [dictGet?, hx] using ih h

theorem dictGet?_dictSet_self {α : Type} (l : List (String × α)) (k : String)
    (v : α) : dictGet? (dictSet l k v) k = some v := by
  unfold dictSet
  split
  · next h => exact dictGet?_map_set l k v h
  · induction l with
    | nil => simp [dictGet?]
    | cons x xs ih =>
      next h =>
      simp only [dictHas, Bool.or_eq_true, decide_eq_true_eq] at h
      push_neg at h
      simpa [dictGet?, h.1] using ih (by simpa [dictHas] using h.2)

theorem dictGet?_map_set_other {α : Type} (l : List (String × α)) (k k' : String)
    (v : α) (h : k' ≠ k) :
    dictGet? (l.map (fun kv => if kv.1 = k then (k, v) else kv)) k' = dictGet? l k' := by
  induction l with
  | nil => simp
  | cons x xs ih =>
    by_cases hx : x.1 = k
    · have hkv : ¬ ((k, v).1 = k') := fun hc => h hc.symm
      have hxk' : ¬ (x.1 = k') := by rw [hx]; exact fun hc => h hc.symm
      simpa [dictGet?, hx, hkv, hxk'] using ih
    · by_cases hx' : x.1 = k'
      · simp [dictGet?, hx, hx', h]
      · simpa [dictGet?, hx, hx'] using ih

theorem dictGet?_append_other {α : Type} (l : List (String × α)) (k k' : String)
    (v : α) (h : k' ≠ k) : dictGet? (l ++ [(k, v)]) k' = dictGet? l k' := by
  have hkv : ¬ ((k, v).1 = k') := fun hc => h hc.symm
  induction l with
  | nil => simp [dictGet?, hkv]
  | cons x xs ih =>
    by_cases hx' : x.1 = k'
    · simp [dictGet?, hx']
    · simpa [dictGet?, hx'] using ih

theorem dictGet?_dictSet_other {α : Type} (l : List (String × α)) (k k' : String)
    (v : α) (h : k' ≠ k) : dictGet? (dictSet l k v) k' = dictGet? l k' := by
  unfold dictSet
  split
  · exact dictGet?_map_set_other l k k' v h
  · exact dictGet?_append_other l k k' v h

theorem dictHas_dictSet_self {α : Type} (l : List (String × α)) (k : String)
    (v : α) : dictHas (dictSet l k v) k = true := by
  unfold dictSet
  split
  · next h =>
    induction l with
    | nil => simp [dictHas] at h
    | cons x xs ih =>
      by_cases hx : x.1 = k
      · simp [dictHas, hx]
      · simp only [dictHas, Bool.or_eq_true, decide_eq_true_eq] at h
        rcases h with h | h
        · exact absurd h hx
        · simpa [dictHas, hx] using ih h
  · induction l with
    | nil => simp [dictHas]
    | cons x xs ih =>
      next h =>
      simp only [dictHas, Bool.or_eq_true, decide_eq_true_eq] at h
      push_neg at h
      simpa [dictHas, h.1] using ih (by simpa [dictHas] using h.2)

theorem dictHas_map_set_other {α : Type} (l : List (String × α)) (k k' : String)
    (v : α) (h : k' ≠ k) :
    dictHas (l.map (fun kv => if kv.1 = k then (k, v) else kv)) k' = dictHas l k' := by
  induction l with
  | nil => simp
  | cons x xs ih =>
    by_cases hx : x.1 = k
    · have hkv : ¬ ((k, v).1 = k') := fun hc => h hc.symm
      have hxk' : ¬ (x.1 = k') := by rw [hx]; exact fun hc => h hc.symm
      simpa [dictHas, hx, hkv, hxk'] using ih
    · by_cases hx' : x.1 = k'
      · simp [dictHas, hx, hx', h]
      · simpa [dictHas, hx, hx'] using ih

theorem dictHas_append_other {α : Type} (l : List (String × α)) (k k' : String)
    (v : α) (h : k' ≠ k) : dictHas (l ++ [(k, v)]) k' = dictHas l k' := by
  have hkv : ¬ ((k, v).1 = k') := fun hc => h hc.symm
  induction l with
  | nil => simp [dictHas, hkv]
  | cons x xs ih =>
    by_cases hx' : x.1 = k'
    · simp [dictHas, hx']
    · simpa [dictHas, hx'] using ih

theorem dictHas_dictSet_other {α : Type} (l : List (String × α)) (k k' : String)
    (v : α) (h : k' ≠ k) : dictHas (dictSet l k v) k' = dictHas l k' := by
  unfold dictSet
  split
  · exact dictHas_map_set_other l k k' v h
  · exact dictHas_append_other l k k' v h

theorem dictSet_isEmpty {α : Type} (l : List (String × α)) (k : String) (v : α) :
    (dictSet l k v).isEmpty = false := by
  unfold dictSet
  split
  · cases l with
    | nil => next h => simp [dictHas] at h
    | cons x xs => simp
  · cases l <;> simp

/-! ## Payment: serializer validation and the `pre_save` signal

`payment` is a JSON object; its numeric values are embedded as rationals. -/

abbrev Payment := List (String × ℚ)

/-- Embedding of `LabRequestCreateSerializer.validate_payment`
(serializers.py 139-171):
reads the raw amounts (defaulting to 0), recomputes `netPayable`,
`balanceDue` and `discountPercent`, and stores them back into the payment
object.  The numeric-coercion failure branch (`float()` raising) cannot
occur in this embedding because values are already rationals. -/
def validatePayment (p : Payment) : Payment :=
  let totalAmount := dictGetD p "totalAmount" 0
  let discountAmount := dictGetD p "discountAmount" 0
  let paidAmount := dictGetD p "paidAmount" 0
  let netPayable := max 0 (totalAmount - discountAmount)
  let p1 := dictSet p "netPayable" netPayable
  let balanceDue := max 0 (netPayable - paidAmount)
  let p2 := dictSet p1 "balanceDue" balanceDue
  if totalAmount > 0 then
    dictSet p2 "discountPercent" (discountAmount / totalAmount * 100)
  else
    dictSet p2 "discountPercent" 0

/-- The `pre_save` signal `validate_and_recalculate_payment`
(signals.py 19-43): on every save of a `LabRequest` with a non-empty
payment object, recomputes `netPayable` and `balanceDue`, but sets
`discountPercent` only when the key is absent. -/
def signalRecalcPayment (p : Payment) : Payment :=
  if p.isEmpty then p
  else
    let totalAmount := dictGetD p "totalAmount" 0
    let discountAmount := dictGetD p "discountAmount" 0
    let paidAmount := dictGetD p "paidAmount" 0
    let netPayable := max 0 (totalAmount - discountAmount)
    let p1 := dictSet p "netPayable" netPayable
    let balanceDue := max 0 (netPayable - paidAmount)
    let p2 := dictSet p1 "balanceDue" balanceDue
    if dictHas p2 "discountPercent" then p2
    else if totalAmount > 0 then
      dictSet p2 "discountPercent" (discountAmount / totalAmount * 100)
    else
      dictSet p2 "discountPercent" 0

/-! ## Data model (models.py) -/

/-- Embedding of `LabRequest.STATUS_CHOICES` (models.py 94-99). -/
inductive Status
  | registered
  | collected
  | analyzed
  | verified
deriving DecidableEq, Repr

/-- Embedding of `LabRequest.STATUS_TRANSITIONS` (models.py 101-106): the linear chain,
with `VERIFIED` terminal. -/
def STATUS_TRANSITIONS : Status → List Status
  | .registered => [.collected]
  | .collected => [.analyzed]
  | .analyzed => [.verified]
  | .verified => []

/-- One entry of a test's result list: `{parameterId, value, flag}`
(models.py 115). -/
structure ResultEntry where
  parameterId : String
  value : String
  flag : String
deriving DecidableEq, Repr

/-- The `results` JSON field: `{test_id: [{parameterId, value, flag}]}`. -/
abbrev Results := List (String × List ResultEntry)

/-- Embedding of `Patient` (models.py 20-58), the fields the claims need. -/
structure Patient where
  id : String
  name : String
  age : Int
  gender : String
  phone : String
deriving DecidableEq, Repr

/-- Embedding of `LabTest` (models.py 61-73).  `sample_type` is a foreign key; the
embedding keeps its id. -/
structure LabTest where
  id : String
  name : String
  price : ℚ
  category : String
  sampleTypeId : String
deriving DecidableEq, Repr

/-- Embedding of `LabRequest` (models.py 92-163).  `tests` is the many-to-many relation,
materialized as the list of catalog rows attached to the request; `patient`
is the foreign key's id. -/
structure LabRequest where
  id : String
  labNo : String
  patient : String
  patientName : String
  tests : List LabTest
  status : Status
  results : Results
  payment : Payment
  referredBy : String
  comments : String
  aiInterpretation : String
  collectedSamples : List String
  phlebotomyComments : String
deriving DecidableEq, Repr

/-- The error outcomes the backend can produce on these paths:
`ValidationError` responses / serializer errors (400), the explicit
"invalid status" 400 responses of the view actions, DRF `NotFound`-style
404 responses (used by `PatientViewSet`, never on the lab-request create
path), and an uncaught `DoesNotExist` exception escaping a view (surfaced
as a 500 server error, not a 404). -/
inductive ApiError
  | validation (detail : String)
  | invalidStatus (current : Status)
  | testNotInRequest (testId : String)
  | invalidTests (invalid : List String)
  | missingSamples (missing : List String)
  | missingResults (missing : List String)
  | emptyResults (testId : String)
  | notFound (detail : String)
  | doesNotExist (entity : String) (id : String)
deriving DecidableEq, Repr

/-- Whether an error is a DRF `NotFound` (a 404 response). -/
def ApiError.isNotFound : ApiError → Bool
  | .notFound _ => true
  | _ => false

/-- Embedding of `LabRequest.clean` (models.py 125-143): for an existing row, a status
change must follow `STATUS_TRANSITIONS`, otherwise a `ValidationError`
naming the attempted and allowed target states is raised.  `clean` is only
run by `full_clean()` callers (the model tests); `LabRequest.save` never
invokes it. -/
def clean (oldStatus newStatus : Status) : Except ApiError Unit :=
  if oldStatus ≠ newStatus then
    if newStatus ∈ STATUS_TRANSITIONS oldStatus then .ok ()
    else .error (.validation "Cannot transition: not in allowed transitions")
  else .ok ()

/-- Zero-padding for the `03d` formats; built on by `labNoFor` and `fmt03d`. -/
def padTo3 (s : List Char) : List Char :=
  List.replicate (3 - s.length) (Char.ofNat 48) ++ s

/-- Decimal digits of `n`, most significant first (fuel-based so that it
reduces by `decide`/`rfl`). -/
def natDigitsAux : Nat → Nat → List Char → List Char
  | 0, _, acc => acc
  | fuel + 1, n, acc =>
    if n < 10 then Nat.digitChar n :: acc
    else natDigitsAux fuel (n / 10) (Nat.digitChar (n % 10) :: acc)

def natDigits (n : Nat) : List Char :=
  natDigitsAux (n + 1) n []

/-- Python `f-string` `{n:03d}`: decimal, zero-padded to at least width 3. -/
def fmt03d (n : Nat) : String :=
  String.mk (padTo3 (natDigits n))

/-- Lab-number generation inside `LabRequest.save` (models.py 145-157):
`LAB-{YYYYMMDD}-{count+1:03d}` where `count` is the number of requests
already created since local midnight. -/
def labNoFor (today : String) (todayCount : Nat) : String :=
  "LAB-" ++ today ++ "-" ++ fmt03d (todayCount + 1)

/-- The persistence step for a `LabRequest`: the `save` override
(models.py 145-157) generates `lab_no` when missing, then `super().save()`
fires the two `pre_save` signals (signals.py 7-43): `populate_patient_name`
copies the patient's name when `patient_name` is empty, and
`validate_and_recalculate_payment` recomputes the payment.  The row is then
written unconditionally: no status-transition or post-VERIFIED immutability
check runs anywhere on this path (`clean` is never called). -/
def modelSave (today : String) (todayCount : Nat) (patientLookup : Option String)
    (r : LabRequest) : LabRequest :=
  let r1 := if r.labNo = "" then { r with labNo := labNoFor today todayCount } else r
  let r2 :=
    if r1.patient ≠ "" ∧ r1.patientName = "" then
      match patientLookup with
      | some n => { r1 with patientName := n }
      | none => r1
    else r1
  { r2 with payment := signalRecalcPayment r2.payment }

/-! ## View operations (views.py, `LabRequestViewSet`) -/

/-- A string list seen as a set: every member of `a` is in `b` and
conversely (Python `set(a) == set(b)`). -/
def sameSetB (a b : List String) : Bool :=
  a.all (fun x => b.contains x) && b.all (fun x => a.contains x)

/-- Left-to-right order-preserving deduplication; stands in for Python's
`set(...)` built from a traversal (set iteration order is unspecified in
Python, so only the membership of the resulting lists is meaningful). -/
def listDedup (l : List String) : List String :=
  l.foldl (fun acc s => if acc.contains s then acc else acc ++ [s]) []

/-- Embedding of `collect` (views.py 97-135): requires status `REGISTERED`, computes the
set of sample types required by the request's tests, rejects with the
missing sample types when not covered, otherwise stores the collected
samples and phlebotomy comments and moves the status to `COLLECTED`. -/
def collect (req : LabRequest) (collectedSamples : List String)
    (phlebotomyComments : String) : Except ApiError LabRequest :=
  if req.status ≠ .registered then
    .error (.invalidStatus req.status)
  else
    let required := listDedup (req.tests.map (fun t => t.sampleTypeId))
    let missing := required.filter (fun s => ! collectedSamples.contains s)
    if ! missing.isEmpty then
      .error (.missingSamples missing)
    else
      .ok { req with
              collectedSamples := collectedSamples
              phlebotomyComments := phlebotomyComments
              status := .collected }

/-- Embedding of `update_results` (views.py 137-175): blocked once `VERIFIED`; the test
must belong to the request; replaces that test's entry in the results map;
advances `REGISTERED`/`COLLECTED` to `ANALYZED`. -/
def updateResults (req : LabRequest) (testId : String)
    (entries : List ResultEntry) : Except ApiError LabRequest :=
  if req.status = .verified then
    .error (.invalidStatus .verified)
  else if ! (req.tests.map (fun t => t.id)).contains testId then
    .error (.testNotInRequest testId)
  else
    let newResults := dictSet req.results testId entries
    let newStatus :=
      if req.status = .registered ∨ req.status = .collected then Status.analyzed
      else req.status
    .ok { req with results := newResults, status := newStatus }

/-- Embedding of `update_all_results` (views.py 177-215): blocked once `VERIFIED`; every
key of the supplied map must be one of the request's tests; replaces the
whole results map; advances `REGISTERED`/`COLLECTED` to `ANALYZED`. -/
def updateAllResults (req : LabRequest) (results : Results) :
    Except ApiError LabRequest :=
  if req.status = .verified then
    .error (.invalidStatus .verified)
  else
    let testIds := req.tests.map (fun t => t.id)
    let invalid := (results.map (fun kv => kv.1)).filter
      (fun k => ! testIds.contains k)
    if ! invalid.isEmpty then
      .error (.invalidTests (listDedup invalid))
    else
      let newStatus :=
        if req.status = .registered ∨ req.status = .collected then Status.analyzed
        else req.status
      .ok { req with results := results, status := newStatus }

/-- Embedding of `update_comment` (views.py 217-228): replaces the free-text comments.
The view has no status check of any kind -- in particular no `VERIFIED`
guard -- and `save` adds none. -/
def updateComment (req : LabRequest) (comments : String) :
    Except ApiError LabRequest :=
  .ok { req with comments := comments }

/-- Embedding of `verify` (views.py 230-272): rejected when already `VERIFIED`; the key
set of the supplied results must equal the request's test id set; every
test must have a non-empty result list; on success the results are replaced
and the status becomes `VERIFIED`. -/
def verify (req : LabRequest) (results : Results) : Except ApiError LabRequest :=
  if req.status = .verified then
    .error (.invalidStatus .verified)
  else
    let testIds := req.tests.map (fun t => t.id)
    let resultKeys := results.map (fun kv => kv.1)
    if ! sameSetB testIds resultKeys then
      .error (.missingResults
        (listDedup (testIds.filter (fun t => ! resultKeys.contains t))))
    else
      match testIds.find? (fun t => ((dictGet? results t).getD []).isEmpty) with
      | some t => .error (.emptyResults t)
      | none => .ok { req with results := results, status := .verified }

/-! ## AI interpretation (services/ai_service.py, views.py `interpret`) -/

/-- Outcome of the call to the external text-generation collaborator
(`self.model.generate_content`): generated text, a timeout, or any other
transport/API exception. -/
inductive GenOutcome
  | success (text : String)
  | timeoutErr
  | apiFailure (message : String)
deriving DecidableEq, Repr

def unavailableMessage : String :=
  "AI interpretation is not available. Please configure GEMINI_API_KEY."

def timedOutMessage : String :=
  "The AI interpretation request timed out. Please try again later."

def failureMessage : String :=
  "Unable to generate AI interpretation at this time. Please try again later."

/-- Embedding of `AIService.analyze_lab_results` (ai_service.py 59-146).  Returns the
interpretation text together with whether a warning/error describing an
underlying collaborator failure was logged.  Every failure branch returns a
user-facing message instead of re-raising: the unconfigured case
(`self.model is None`), the timeout case, and the generic exception case. -/
def analyzeLabResults (configured : Bool) (outcome : GenOutcome) :
    String × Bool :=
  if ! configured then (unavailableMessage, true)
  else
    match outcome with
    | .success text => (text, false)
    | .timeoutErr => (timedOutMessage, true)
    | .apiFailure _ => (failureMessage, true)

/-- Embedding of `interpret` (views.py 274-331): calls the AI service and saves whatever
text it returns as `ai_interpretation`.  Collaborator failures never reach
the view's `except` branch because `analyze_lab_results` catches them and
returns a message, so the action succeeds with the message stored. -/
def interpret (req : LabRequest) (configured : Bool) (outcome : GenOutcome) :
    Except ApiError LabRequest :=
  .ok { req with aiInterpretation := (analyzeLabResults configured outcome).1 }

/-! ## The request-scoped mutating operations, as one step relation -/

/-- One invocation of a request-scoped action of `LabRequestViewSet`. -/
inductive Op
  | collectOp (samples : List String) (phlebotomyComments : String)
  | updateResultsOp (testId : String) (entries : List ResultEntry)
  | updateAllResultsOp (results : Results)
  | updateCommentOp (comments : String)
  | verifyOp (results : Results)
  | interpretOp (configured : Bool) (outcome : GenOutcome)
deriving Repr

def applyOp (op : Op) (req : LabRequest) : Except ApiError LabRequest :=
  match op with
  | .collectOp samples phleb => collect req samples phleb
  | .updateResultsOp testId entries => updateResults req testId entries
  | .updateAllResultsOp results => updateAllResults req results
  | .updateCommentOp comments => updateComment req comments
  | .verifyOp results => verify req results
  | .interpretOp configured outcome => interpret req configured outcome

/-- Position of a status along the pipeline. -/
def statusRank : Status → Nat
  | .registered => 0
  | .collected => 1
  | .analyzed => 2
  | .verified => 3

/-- The status changes the view layer can actually perform: `collect`
moves REGISTERED to COLLECTED; `update_results`/`update_all_results` move
REGISTERED or COLLECTED to ANALYZED; `verify` moves any non-VERIFIED
status to VERIFIED. -/
def viewEdge (a b : Status) : Prop :=
  (a, b) ∈ [(Status.registered, Status.collected),
            (Status.registered, Status.analyzed),
            (Status.collected, Status.analyzed),
            (Status.registered, Status.verified),
            (Status.collected, Status.verified),
            (Status.analyzed, Status.verified)]

/-! ## Patient identifier generation (models.py `Patient.save`, 37-52) -/

/-- Python string `<` (lexicographic on code points). -/
def strLtChars : List Char → List Char → Bool
  | [], [] => false
  | [], _ :: _ => true
  | _ :: _, [] => false
  | a :: as, b :: bs =>
    if a.toNat < b.toNat then true
    else if a.toNat = b.toNat then strLtChars as bs
    else false

def pyStrLt (a b : String) : Bool := strLtChars a.data b.data

/-- Embedding of `Patient.objects.order_by(-id).first()`: the greatest id under the
store's string ordering (none when no patient exists). -/
def lastPatientId : List String → Option String
  | [] => none
  | x :: xs => some (xs.foldl (fun m s => if pyStrLt m s then s else m) x)

/-- Embedding of `int(last_patient.id[1:])`: drop the first character and parse the rest
as a decimal number.  Returns `none` where Python's `int()` raises
`ValueError` (empty or non-digit remainder; the sign/whitespace forms
`int()` also accepts are never produced for patient ids and are not
modelled). -/
def parseIntSuffix (s : String) : Option Nat :=
  let t := s.data.drop 1
  if t.isEmpty then none
  else if t.all (fun c => decide (48 ≤ c.toNat ∧ c.toNat ≤ 57)) then
    some (t.foldl (fun acc c => acc * 10 + (c.toNat - 48)) 0)
  else none

/-- The id format `P{n:03d}`. -/
def pIdStr (n : Nat) : String := "P" ++ fmt03d n

/-- Id generation in `Patient.save` (models.py 37-52): take the greatest
existing id in string order, parse its numeric suffix and add one; start at
1 when the store is empty or the suffix does not parse. -/
def genPatientId (ids : List String) : String :=
  match lastPatientId ids with
  | none => pIdStr 1
  | some last =>
    match parseIntSuffix last with
    | some lastNum => pIdStr (lastNum + 1)
    | none => pIdStr 1

/-! ## Request creation (serializers.py 126-201, views.py 87-95) -/

/-- The backing store as the create path sees it, plus the inputs `save`
needs that come from outside the data (the date and the fresh UUID4). -/
structure Store where
  patients : List Patient
  catalog : List LabTest
  requests : List LabRequest
  today : String
  todayCount : Nat
  freshUuid : String
deriving Repr

/-- Embedding of `LabRequestViewSet.create` running `LabRequestCreateSerializer`
(serializers.py 126-201): `validate_test_ids` requires a non-empty list;
`validate_payment` recomputes the payment; `validate` requires the catalog
rows matching `test_ids` to be exactly as many as the ids sent (an unknown
id or a duplicated id both fail); then `create` looks the patient up with
`Patient.objects.get` -- an unknown patient raises `Patient.DoesNotExist`,
which no caller catches, so it surfaces as a server error, not as a 404 --
creates the row (uuid id, generated lab number, patient name copied by the
`pre_save` signal, status defaulting to REGISTERED) and attaches the tests.
Nothing is persisted on any failure: the patient lookup precedes the row
creation. -/
def createLabRequest (st : Store) (patientId : String) (testIds : List String)
    (payment : Payment) (referredBy : String) :
    Except ApiError (LabRequest × Store) :=
  if testIds.isEmpty then
    .error (.validation "At least one test must be selected.")
  else
    let pay := validatePayment payment
    let found := st.catalog.filter (fun t => testIds.contains t.id)
    if found.length ≠ testIds.length then
      .error (.validation "One or more test IDs are invalid.")
    else
      match st.patients.find? (fun p => p.id = patientId) with
      | none => .error (.doesNotExist "Patient" patientId)
      | some patient =>
        let row : LabRequest :=
          { id := st.freshUuid
            labNo := ""
            patient := patientId
            patientName := ""
            tests := []
            status := .registered
            results := []
            payment := pay
            referredBy := referredBy
            comments := ""
            aiInterpretation := ""
            collectedSamples := []
            phlebotomyComments := "" }
        let saved := modelSave st.today st.todayCount (some patient.name) row
        let withTests := { saved with tests := found }
        .ok (withTests,
             { st with
                 requests := st.requests ++ [withTests]
                 todayCount := st.todayCount + 1 })

/-! ## Concrete fixtures used by counterexamples and witnesses -/

def cbcTest : LabTest :=
  { id := "cbc"
    name := "Complete Blood Count"
    price := 750
    category := "Hematology"
    sampleTypeId := "edta" }

def sampleEntry : ResultEntry :=
  { parameterId := "hb", value := "15.5", flag := "N" }

def regRequest : LabRequest :=
  { id := "uuid-1"
    labNo := "LAB-20240101-001"
    patient := "P001"
    patientName := "Ali"
    tests := [cbcTest]
    status := .registered
    results := []
    payment := []
    referredBy := ""
    comments := "Test comment"
    aiInterpretation := ""
    collectedSamples := []
    phlebotomyComments := "" }

def verifiedRequest : LabRequest :=
  { regRequest with status := .verified, results := [("cbc", [sampleEntry])] }

/-! ## Claim theorems -/

/-- C3: the claim says `UpdateComment` on a VERIFIED request fails with
InvalidState leaving the comments unchanged.  The code has no such guard:
on the fixture VERIFIED request, `update_comment` succeeds and replaces the
comments, while `interpret` (SetAIInterpretation) also succeeds as the
claim states.  This contradicts the spec and the repository's own
`tests.py::test_post_verified_immutability`, which asserts that a comments
change after VERIFIED raises. -/
theorem c3_update_comment_after_verified :
    verifiedRequest.status = Status.verified ∧
    verifiedRequest.comments = "Test comment" ∧
    updateComment verifiedRequest "New comment" =
      .ok { verifiedRequest with comments := "New comment" } ∧
    ({ verifiedRequest with comments := "New comment" } : LabRequest).comments ≠
      verifiedRequest.comments ∧
    interpret verifiedRequest true (.success "AI text") =
      .ok { verifiedRequest with aiInterpretation := "AI text" } :=
  ⟨rfl, rfl, rfl, by decide, rfl⟩

/-- The instance a caller hands to `save` in the C2 scenario: the stored
row is `verifiedRequest`, and the write both edits the frozen comments and
regresses the status. -/
def tamperedInstance : LabRequest :=
  { verifiedRequest with comments := "New comment", status := .registered }

/-- C2: the claim says the store-level write path itself rejects a
disallowed status change and any post-VERIFIED edit to results or
comments.  `LabRequest.save` performs no such validation -- it only
generates `lab_no` and fires the payment/patient-name signals, and never
calls `clean` -- so a write that regresses a VERIFIED request's status and
edits its comments is persisted verbatim, even though the transition logic
that does exist in the model (`clean`) would reject that very status
change.  This contradicts the spec and the repository's own
`tests.py::test_post_verified_immutability` /
`test_invalid_status_transition_blocked`, which assert that such `save`
calls raise. -/
theorem c2_save_accepts_disallowed_write :
    verifiedRequest.status = Status.verified ∧
    tamperedInstance.status = Status.registered ∧
    tamperedInstance.comments ≠ verifiedRequest.comments ∧
    modelSave "20240101" 0 none tamperedInstance = tamperedInstance ∧
    clean verifiedRequest.status tamperedInstance.status =
      .error (.validation "Cannot transition: not in allowed transitions") :=
  ⟨rfl, rfl, by decide, rfl, rfl⟩

/-- C10: on every failure of the text-generation collaborator (the service
being unconfigured, a timeout, or any other transport/API error), the
interpret action does not propagate the failure: it succeeds, stores a
user-facing explanatory message as `aiInterpretation`, and the underlying
cause is logged. -/
theorem c10_interpret_degrades (req : LabRequest) (msg : String)
    (outcome : GenOutcome) :
    (interpret req false outcome =
        .ok { req with aiInterpretation := unavailableMessage } ∧
      (analyzeLabResults false outcome).2 = true) ∧
    (interpret req true .timeoutErr =
        .ok { req with aiInterpretation := timedOutMessage } ∧
      (analyzeLabResults true .timeoutErr).2 = true) ∧
    (interpret req true (.apiFailure msg) =
        .ok { req with aiInterpretation := failureMessage } ∧
      (analyzeLabResults true (.apiFailure msg)).2 = true) :=
  ⟨⟨rfl, rfl⟩, ⟨rfl, rfl⟩, ⟨rfl, rfl⟩⟩

/-! ### Payment lemmas shared by the payment claims -/

theorem validatePayment_get_other (p : Payment) (k : String)
    (h1 : k ≠ "netPayable") (h2 : k ≠ "balanceDue")
    (h3 : k ≠ "discountPercent") :
    dictGet? (validatePayment p) k = dictGet? p k := by
  simp only [validatePayment]
  split <;>
    rw [dictGet?_dictSet_other _ _ _ _ h3, dictGet?_dictSet_other _ _ _ _ h2,
      dictGet?_dictSet_other _ _ _ _ h1]

theorem validatePayment_netPayable (p : Payment) :
    dictGetD (validatePayment p) "netPayable" 0 =
      max 0 (dictGetD p "totalAmount" 0 - dictGetD p "discountAmount" 0) := by
  simp only [validatePayment, dictGetD]
  split <;>
    rw [dictGet?_dictSet_other _ _ _ _ (by decide),
      dictGet?_dictSet_other _ _ _ _ (by decide), dictGet?_dictSet_self] <;>
    rfl

theorem validatePayment_balanceDue (p : Payment) :
    dictGetD (validatePayment p) "balanceDue" 0 =
      max 0 (max 0 (dictGetD p "totalAmount" 0 - dictGetD p "discountAmount" 0)
        - dictGetD p "paidAmount" 0) := by
  simp only [validatePayment, dictGetD]
  split <;>
    rw [dictGet?_dictSet_other _ _ _ _ (by decide), dictGet?_dictSet_self] <;>
    rfl

theorem validatePayment_discountPercent (p : Payment) :
    dictGetD (validatePayment p) "discountPercent" 0 =
      (if dictGetD p "totalAmount" 0 > 0 then
        dictGetD p "discountAmount" 0 / dictGetD p "totalAmount" 0 * 100
       else 0) := by
  simp only [validatePayment, dictGetD]
  split <;> next h => simp [h, dictGet?_dictSet_self]

theorem validatePayment_hasDiscountPercent (p : Payment) :
    dictHas (validatePayment p) "discountPercent" = true := by
  simp only [validatePayment]
  split <;> exact dictHas_dictSet_self _ _ _

theorem validatePayment_isEmpty (p : Payment) :
    (validatePayment p).isEmpty = false := by
  simp only [validatePayment]
  split <;> exact dictSet_isEmpty _ _ _

theorem signalRecalc_netPayable (p : Payment) (h : p.isEmpty = false) :
    dictGetD (signalRecalcPayment p) "netPayable" 0 =
      max 0 (dictGetD p "totalAmount" 0 - dictGetD p "discountAmount" 0) := by
  simp only [signalRecalcPayment, h, Bool.false_eq_true, if_false, dictGetD]
  split
  · rw [dictGet?_dictSet_other _ _ _ _ (by decide), dictGet?_dictSet_self]
    rfl
  · split <;>
      rw [dictGet?_dictSet_other _ _ _ _ (by decide),
        dictGet?_dictSet_other _ _ _ _ (by decide), dictGet?_dictSet_self] <;>
      rfl

theorem signalRecalc_balanceDue (p : Payment) (h : p.isEmpty = false) :
    dictGetD (signalRecalcPayment p) "balanceDue" 0 =
      max 0 (max 0 (dictGetD p "totalAmount" 0 - dictGetD p "discountAmount" 0)
        - dictGetD p "paidAmount" 0) := by
  simp only [signalRecalcPayment, h, Bool.false_eq_true, if_false, dictGetD]
  split
  · rw [dictGet?_dictSet_self]
    rfl
  · split <;> rw [dictGet?_dictSet_other _ _ _ _ (by decide), dictGet?_dictSet_self] <;> rfl

theorem signalRecalc_discount_kept (p : Payment) (h : p.isEmpty = false)
    (hd : dictHas p "discountPercent" = true) :
    dictGet? (signalRecalcPayment p) "discountPercent" =
      dictGet? p "discountPercent" := by
  simp only [signalRecalcPayment, h, Bool.false_eq_true, if_false]
  rw [if_pos]
  · rw [dictGet?_dictSet_other _ _ _ _ (by decide),
      dictGet?_dictSet_other _ _ _ _ (by decide)]
  · rw [dictHas_dictSet_other _ _ _ _ (by decide),
      dictHas_dictSet_other _ _ _ _ (by decide)]
    exact hd

theorem signalRecalc_discount_absent (p : Payment) (h : p.isEmpty = false)
    (hd : dictHas p "discountPercent" = false) :
    dictGetD (signalRecalcPayment p) "discountPercent" 0 =
      (if dictGetD p "totalAmount" 0 > 0 then
        dictGetD p "discountAmount" 0 / dictGetD p "totalAmount" 0 * 100
       else 0) := by
  simp only [signalRecalcPayment, h, Bool.false_eq_true, if_false, dictGetD]
  rw [if_neg]
  · split <;> next hc => simp [hc, dictGet?_dictSet_self]
  · rw [dictHas_dictSet_other _ _ _ _ (by decide),
      dictHas_dictSet_other _ _ _ _ (by decide), hd]
    simp

/-- C4: for every payment input going through the payment calculator
(`validate_payment`) and then stored (every persist runs the recalculation
signal), the stored derived fields satisfy
`netPayable = max 0 (total - discount)`,
`balanceDue = max 0 (netPayable - paid)` and
`discountPercent = discount / total * 100` when `total > 0` else `0`,
and `netPayable` and `balanceDue` are never negative. -/
theorem c4_payment_derived_fields (p : Payment) :
    dictGetD (signalRecalcPayment (validatePayment p)) "netPayable" 0 =
      max 0 (dictGetD p "totalAmount" 0 - dictGetD p "discountAmount" 0) ∧
    dictGetD (signalRecalcPayment (validatePayment p)) "balanceDue" 0 =
      max 0 (max 0 (dictGetD p "totalAmount" 0 - dictGetD p "discountAmount" 0)
        - dictGetD p "paidAmount" 0) ∧
    dictGetD (signalRecalcPayment (validatePayment p)) "discountPercent" 0 =
      (if dictGetD p "totalAmount" 0 > 0 then
        dictGetD p "discountAmount" 0 / dictGetD p "totalAmount" 0 * 100
       else 0) ∧
    0 ≤ dictGetD (signalRecalcPayment (validatePayment p)) "netPayable" 0 ∧
    0 ≤ dictGetD (signalRecalcPayment (validatePayment p)) "balanceDue" 0 := by
  have hne := validatePayment_isEmpty p
  have hraw : ∀ k : String, k ≠ "netPayable" → k ≠ "balanceDue" →
      k ≠ "discountPercent" →
      dictGetD (validatePayment p) k 0 = dictGetD p k 0 := by
    intro k h1 h2 h3
    unfold dictGetD
    rw [validatePayment_get_other p k h1 h2 h3]
  have hnet : dictGetD (signalRecalcPayment (validatePayment p)) "netPayable" 0 =
      max 0 (dictGetD p "totalAmount" 0 - dictGetD p "discountAmount" 0) := by
    rw [signalRecalc_netPayable _ hne, hraw "totalAmount" (by decide) (by decide) (by decide),
      hraw "discountAmount" (by decide) (by decide) (by decide)]
  have hbal : dictGetD (signalRecalcPayment (validatePayment p)) "balanceDue" 0 =
      max 0 (max 0 (dictGetD p "totalAmount" 0 - dictGetD p "discountAmount" 0)
        - dictGetD p "paidAmount" 0) := by
    rw [signalRecalc_balanceDue _ hne, hraw "totalAmount" (by decide) (by decide) (by decide),
      hraw "discountAmount" (by decide) (by decide) (by decide),
      hraw "paidAmount" (by decide) (by decide) (by decide)]
  refine ⟨hnet, hbal, ?_, ?_, ?_⟩
  · have hkeep := signalRecalc_discount_kept (validatePayment p) hne
      (validatePayment_hasDiscountPercent p)
    unfold dictGetD
    rw [hkeep]
    have := validatePayment_discountPercent p
    unfold dictGetD at this
    rw [this]
  · rw [hnet]; exact le_max_left 0 _
  · rw [hbal]; exact le_max_left 0 _

/-- The payment object a client could send on a generic update: raw fields
plus a bogus client-supplied `discountPercent`. -/
def clientPayment : Payment :=
  [("totalAmount", 100), ("discountAmount", 0), ("paidAmount", 0),
   ("discountPercent", 50)]

/-- C5 counterexample: the claim says all three derived fields are
recomputed on every persist and a client-supplied derived value is never
kept.  The persist-time signal recomputes `discountPercent` only when the
key is absent: a payment carrying `discountPercent = 50` with
`discountAmount = 0` is stored with `discountPercent = 50`, although
recomputation from the raw fields gives `0`. -/
theorem c5_counterexample :
    dictGetD (signalRecalcPayment clientPayment) "discountPercent" 0 = 50 ∧
    dictGetD clientPayment "discountAmount" 0 /
      dictGetD clientPayment "totalAmount" 0 * 100 = 0 ∧
    (50 : ℚ) ≠ 0 := by
  refine ⟨by rfl, ?_, by norm_num⟩
  show (0 : ℚ) / 100 * 100 = 0
  norm_num

/-- C5 as amended: on every persist of a non-empty payment object the
signal recomputes `netPayable` and `balanceDue` from the raw fields, and
recomputes `discountPercent` only when the key is absent, keeping a
client-supplied value otherwise; the create-path calculator
(`validate_payment`) always recomputes `discountPercent`. -/
theorem c5_signal_recalculation (p : Payment) (h : p.isEmpty = false) :
    dictGetD (signalRecalcPayment p) "netPayable" 0 =
      max 0 (dictGetD p "totalAmount" 0 - dictGetD p "discountAmount" 0) ∧
    dictGetD (signalRecalcPayment p) "balanceDue" 0 =
      max 0 (max 0 (dictGetD p "totalAmount" 0 - dictGetD p "discountAmount" 0)
        - dictGetD p "paidAmount" 0) ∧
    (dictHas p "discountPercent" = false →
      dictGetD (signalRecalcPayment p) "discountPercent" 0 =
        (if dictGetD p "totalAmount" 0 > 0 then
          dictGetD p "discountAmount" 0 / dictGetD p "totalAmount" 0 * 100
         else 0)) ∧
    (dictHas p "discountPercent" = true →
      dictGet? (signalRecalcPayment p) "discountPercent" =
        dictGet? p "discountPercent") ∧
    dictGetD (validatePayment p) "discountPercent" 0 =
      (if dictGetD p "totalAmount" 0 > 0 then
        dictGetD p "discountAmount" 0 / dictGetD p "totalAmount" 0 * 100
       else 0) :=
  ⟨signalRecalc_netPayable p h, signalRecalc_balanceDue p h,
   fun hd => signalRecalc_discount_absent p h hd,
   fun hd => signalRecalc_discount_kept p h hd,
   validatePayment_discountPercent p⟩

/-- C5 witness: the amended statement applied to the concrete client
payment, with the kept-value implication discharged. -/
theorem c5_signal_recalculation_witness :
    dictGetD (signalRecalcPayment clientPayment) "netPayable" 0 =
      max 0 (dictGetD clientPayment "totalAmount" 0
        - dictGetD clientPayment "discountAmount" 0) ∧
    dictGet? (signalRecalcPayment clientPayment) "discountPercent" =
      dictGet? clientPayment "discountPercent" :=
  ⟨(c5_signal_recalculation clientPayment (by decide)).1,
   (c5_signal_recalculation clientPayment (by decide)).2.2.2.1 (by decide)⟩

/-! ### Set-view lemmas for the list-based checks -/

theorem contains_iff_mem (l : List String) (x : String) :
    l.contains x = true ↔ x ∈ l := by
  simp [List.contains]

theorem sameSetB_iff (a b : List String) :
    sameSetB a b = true ↔ ∀ x, x ∈ a ↔ x ∈ b := by
  simp only [sameSetB, Bool.and_eq_true, List.all_eq_true, List.contains]
  constructor
  · rintro ⟨h1, h2⟩ x
    exact ⟨fun hx => by simpa using h1 x hx, fun hx => by simpa using h2 x hx⟩
  · intro h
    exact ⟨fun x hx => by simpa using (h x).mp hx,
           fun x hx => by simpa using (h x).mpr hx⟩

theorem mem_foldl_dedup (l : List String) (acc : List String) (x : String) :
    (x ∈ l.foldl (fun acc s => if acc.contains s then acc else acc ++ [s]) acc)
      ↔ x ∈ acc ∨ x ∈ l := by
  induction l generalizing acc with
  | nil => simp
  | cons a as ih =>
    simp only [List.foldl_cons]
    by_cases ha : acc.contains a
    · rw [if_pos ha, ih]
      constructor
      · rintro (h | h)
        · exact Or.inl h
        · exact Or.inr (List.mem_cons_of_mem a h)
      · rintro (h | h)
        · exact Or.inl h
        · rcases List.mem_cons.mp h with rfl | h
          · exact Or.inl ((contains_iff_mem acc x).mp ha)
          · exact Or.inr h
    · rw [if_neg ha, ih]
      simp only [List.mem_append, List.mem_singleton, List.mem_cons]
      tauto

theorem mem_listDedup (l : List String) (x : String) :
    x ∈ listDedup l ↔ x ∈ l := by
  unfold listDedup
  rw [mem_foldl_dedup]
  simp

/-- C6: `Verify` fails when the request is already VERIFIED; fails whenever
the supplied results' key set differs from the request's test id set in
either direction; fails when some test's result list is missing or empty;
and otherwise succeeds, replacing the stored results with the supplied map
and setting the status to VERIFIED. -/
theorem c6_verify_contract (req : LabRequest) (results : Results) :
    (req.status = .verified →
      verify req results = .error (.invalidStatus .verified)) ∧
    (req.status ≠ .verified →
      ¬ (∀ t, t ∈ req.tests.map (fun t => t.id)
            ↔ t ∈ results.map (fun kv => kv.1)) →
      verify req results = .error (.missingResults
        (listDedup ((req.tests.map (fun t => t.id)).filter
          (fun t => ! (results.map (fun kv => kv.1)).contains t))))) ∧
    (req.status ≠ .verified →
      (∀ t, t ∈ req.tests.map (fun t => t.id)
          ↔ t ∈ results.map (fun kv => kv.1)) →
      (∃ t ∈ req.tests.map (fun t => t.id), (dictGet? results t).getD [] = []) →
      ∃ t, t ∈ req.tests.map (fun t => t.id) ∧ (dictGet? results t).getD [] = [] ∧
        verify req results = .error (.emptyResults t)) ∧
    (req.status ≠ .verified →
      (∀ t, t ∈ req.tests.map (fun t => t.id)
          ↔ t ∈ results.map (fun kv => kv.1)) →
      (∀ t ∈ req.tests.map (fun t => t.id), (dictGet? results t).getD [] ≠ []) →
      verify req results = .ok { req with results := results, status := .verified }) := by
  refine ⟨fun h => by simp [verify, h], ?_, ?_, ?_⟩
  · intro h hne
    have hb : sameSetB (req.tests.map (fun t => t.id))
        (results.map (fun kv => kv.1)) = false := by
      rcases Bool.eq_false_or_eq_true (sameSetB (req.tests.map (fun t => t.id))
        (results.map (fun kv => kv.1))) with ht | hf
      · exact absurd ((sameSetB_iff _ _).mp ht) hne
      · exact hf
    unfold verify
    rw [if_neg h]
    dsimp only
    rw [hb]
    rfl
  · intro h hs hex
    have hb := (sameSetB_iff _ _).mpr hs
    have hsome : ((req.tests.map (fun t => t.id)).find?
        (fun t => ((dictGet? results t).getD []).isEmpty)).isSome := by
      rw [List.find?_isSome]
      obtain ⟨t, hmem, hemp⟩ := hex
      exact ⟨t, hmem, by simp [hemp]⟩
    obtain ⟨t, hfind⟩ := Option.isSome_iff_exists.mp hsome
    refine ⟨t, List.mem_of_find?_eq_some hfind, ?_, ?_⟩
    · have := List.find?_some hfind
      simpa [List.isEmpty_iff] using this
    · unfold verify
      rw [if_neg h]
      dsimp only
      rw [hb, hfind]
      rfl
  · intro h hs hall
    have hb := (sameSetB_iff _ _).mpr hs
    have hnone : ((req.tests.map (fun t => t.id)).find?
        (fun t => ((dictGet? results t).getD []).isEmpty)) = none := by
      rw [List.find?_eq_none]
      intro t hmem
      simpa [List.isEmpty_iff] using hall t hmem
    unfold verify
    rw [if_neg h]
    dsimp only
    rw [hb, hnone]
    rfl

/-- C6 witness: on the fixture one-test request in status REGISTERED (any
non-VERIFIED status), a results map keyed exactly by the test with a
non-empty list verifies successfully. -/
theorem c6_verify_contract_witness :
    verify regRequest [("cbc", [sampleEntry])] =
      .ok { regRequest with
              results := [("cbc", [sampleEntry])], status := .verified } :=
  (c6_verify_contract regRequest [("cbc", [sampleEntry])]).2.2.2
    (by decide) (fun t => Iff.rfl) (by decide)

/-- C8: `Collect` requires status REGISTERED (otherwise rejected with the
current status); rejects with the list of missing sample types whenever the
collected samples do not cover the union of the sample types required by
the request's tests; and when that union is covered (extra unrelated sample
ids allowed) stores the collected samples and phlebotomy comments and sets
the status to COLLECTED. -/
theorem c8_collect_contract (req : LabRequest) (samples : List String)
    (phleb : String) :
    (req.status ≠ .registered →
      collect req samples phleb = .error (.invalidStatus req.status)) ∧
    (req.status = .registered →
      (∃ t ∈ req.tests, t.sampleTypeId ∉ samples) →
      ∃ missing, collect req samples phleb = .error (.missingSamples missing) ∧
        (∀ s, s ∈ missing ↔ ((∃ t ∈ req.tests, t.sampleTypeId = s) ∧ s ∉ samples))) ∧
    (req.status = .registered →
      (∀ t ∈ req.tests, t.sampleTypeId ∈ samples) →
      collect req samples phleb =
        .ok { req with
                collectedSamples := samples
                phlebotomyComments := phleb
                status := .collected }) := by
  refine ⟨fun h => by simp [collect, h], ?_, ?_⟩
  · intro h hex
    refine ⟨(listDedup (req.tests.map (fun t => t.sampleTypeId))).filter
      (fun s => ! samples.contains s), ?_, ?_⟩
    · have hne : ((listDedup (req.tests.map (fun t => t.sampleTypeId))).filter
          (fun s => ! samples.contains s)).isEmpty = false := by
        obtain ⟨t, hmem, hnc⟩ := hex
        rcases Bool.eq_false_or_eq_true (((listDedup (req.tests.map
          (fun t => t.sampleTypeId))).filter
            (fun s => ! samples.contains s)).isEmpty) with ht | hf
        · exfalso
          rw [List.isEmpty_iff] at ht
          have hmem2 : t.sampleTypeId ∈ (listDedup (req.tests.map
              (fun t => t.sampleTypeId))).filter (fun s => ! samples.contains s) := by
            rw [List.mem_filter]
            refine ⟨(mem_listDedup _ _).mpr (List.mem_map.mpr ⟨t, hmem, rfl⟩), ?_⟩
            simp only [Bool.not_eq_true']
            rcases Bool.eq_false_or_eq_true (samples.contains t.sampleTypeId) with ht2 | hf2
            · exact absurd ((contains_iff_mem _ _).mp ht2) hnc
            · exact hf2
          rw [ht] at hmem2
          simp at hmem2
        · exact hf
      unfold collect
      rw [if_neg (by simp [h])]
      dsimp only
      rw [hne]
      rfl
    · intro s
      rw [List.mem_filter, mem_listDedup, List.mem_map]
      constructor
      · rintro ⟨⟨t, hmem, rfl⟩, hnc⟩
        refine ⟨⟨t, hmem, rfl⟩, ?_⟩
        simp only [Bool.not_eq_true'] at hnc
        intro hs
        rw [(contains_iff_mem samples t.sampleTypeId).symm] at hs
        rw [hnc] at hs
        exact Bool.false_ne_true hs
      · rintro ⟨⟨t, hmem, rfl⟩, hns⟩
        refine ⟨⟨t, hmem, rfl⟩, ?_⟩
        simp only [Bool.not_eq_true']
        rcases Bool.eq_false_or_eq_true (samples.contains t.sampleTypeId) with ht2 | hf2
        · exact absurd ((contains_iff_mem _ _).mp ht2) hns
        · exact hf2
  · intro h hall
    have hne : ((listDedup (req.tests.map (fun t => t.sampleTypeId))).filter
        (fun s => ! samples.contains s)).isEmpty = true := by
      rw [List.isEmpty_iff, List.filter_eq_nil_iff]
      intro s hmem
      obtain ⟨t, hmemt, rfl⟩ := List.mem_map.mp ((mem_listDedup _ _).mp hmem)
      simp only [Bool.not_eq_true', Bool.not_eq_false]
      exact (contains_iff_mem _ _).mpr (hall t hmemt)
    unfold collect
    rw [if_neg (by simp [h])]
    dsimp only
    rw [hne]
    rfl

/-- C8 witness: on the fixture REGISTERED request requiring only `edta`,
collecting `edta` plus an unrelated sample succeeds and sets the status to
COLLECTED. -/
theorem c8_collect_contract_witness :
    collect regRequest ["edta", "urine"] "ok" =
      .ok { regRequest with
              collectedSamples := ["edta", "urine"]
              phlebotomyComments := "ok"
              status := .collected } :=
  (c8_collect_contract regRequest ["edta", "urine"] "ok").2.2 (by decide) (by decide)

/-- C1 counterexample: the claim says every status change outside
`STATUS_TRANSITIONS` fails with InvalidTransition, except the
UpdateResults/UpdateAllResults advance to ANALYZED.  But `verify` on a
REGISTERED request with complete results succeeds, jumping
REGISTERED to VERIFIED -- an edge that is not in the table. -/
theorem c1_transition_skip_counterexample :
    regRequest.status = Status.registered ∧
    ¬ Status.verified ∈ STATUS_TRANSITIONS Status.registered ∧
    verify regRequest [("cbc", [sampleEntry])] =
      .ok { regRequest with
              results := [("cbc", [sampleEntry])], status := .verified } :=
  ⟨rfl, by decide, rfl⟩

/-- C1 as amended: across every request-scoped operation, the status only
moves forward (it never regresses and never changes once VERIFIED), and
every successful status change is one of the edges the view layer
implements: REGISTERED to COLLECTED by `collect`, REGISTERED/COLLECTED to
ANALYZED by the result updates, and any non-VERIFIED status to VERIFIED by
`verify`. -/
theorem c1_status_forward_only (op : Op) (req r : LabRequest)
    (h : applyOp op req = .ok r) :
    statusRank req.status ≤ statusRank r.status ∧
    (r.status = req.status ∨ viewEdge req.status r.status) ∧
    (req.status = .verified → r.status = .verified) := by
  cases op with
  | collectOp samples phleb =>
    simp only [applyOp] at h
    unfold collect at h
    by_cases hs : req.status ≠ .registered
    · rw [if_pos hs] at h
      exact absurd h (by simp)
    · rw [if_neg hs] at h
      push_neg at hs
      dsimp only at h
      split at h
      · exact absurd h (by simp)
      · simp only [Except.ok.injEq] at h
        subst h
        dsimp only
        simp only [hs]
        exact ⟨by decide, Or.inr (by unfold viewEdge; decide),
          fun hv => absurd hv (by decide)⟩
  | updateResultsOp testId entries =>
    simp only [applyOp] at h
    unfold updateResults at h
    by_cases hs : req.status = .verified
    · rw [if_pos hs] at h
      exact absurd h (by simp)
    · rw [if_neg hs] at h
      split at h
      · exact absurd h (by simp)
      · dsimp only at h
        simp only [Except.ok.injEq] at h
        subst h
        dsimp only
        cases hst : req.status with
        | registered =>
          simp only [hst]
          exact ⟨by decide, Or.inr (by unfold viewEdge; decide),
            fun hv => absurd hv (by decide)⟩
        | collected =>
          simp only [hst]
          exact ⟨by decide, Or.inr (by unfold viewEdge; decide),
            fun hv => absurd hv (by decide)⟩
        | analyzed =>
          try simp only [hst]
          exact ⟨by decide, Or.inl (by decide), fun hv => absurd hv (by decide)⟩
        | verified => exact absurd hst hs
  | updateAllResultsOp results =>
    simp only [applyOp] at h
    unfold updateAllResults at h
    by_cases hs : req.status = .verified
    · rw [if_pos hs] at h
      exact absurd h (by simp)
    · rw [if_neg hs] at h
      dsimp only at h
      split at h
      · exact absurd h (by simp)
      · simp only [Except.ok.injEq] at h
        subst h
        dsimp only
        cases hst : req.status with
        | registered =>
          simp only [hst]
          exact ⟨by decide, Or.inr (by unfold viewEdge; decide),
            fun hv => absurd hv (by decide)⟩
        | collected =>
          simp only [hst]
          exact ⟨by decide, Or.inr (by unfold viewEdge; decide),
            fun hv => absurd hv (by decide)⟩
        | analyzed =>
          try simp only [hst]
          exact ⟨by decide, Or.inl (by decide), fun hv => absurd hv (by decide)⟩
        | verified => exact absurd hst hs
  | updateCommentOp comments =>
    simp only [applyOp] at h
    unfold updateComment at h
    simp only [Except.ok.injEq] at h
    subst h
    exact ⟨le_refl _, Or.inl rfl, fun hv => hv⟩
  | verifyOp results =>
    simp only [applyOp] at h
    unfold verify at h
    by_cases hs : req.status = .verified
    · rw [if_pos hs] at h
      exact absurd h (by simp)
    · rw [if_neg hs] at h
      dsimp only at h
      split at h
      · exact absurd h (by simp)
      · split at h
        · exact absurd h (by simp)
        · simp only [Except.ok.injEq] at h
          subst h
          dsimp only
          cases hst : req.status with
          | registered =>
            simp only [hst]
            exact ⟨by decide, Or.inr (by unfold viewEdge; decide),
              fun hv => absurd hv (by decide)⟩
          | collected =>
            simp only [hst]
            exact ⟨by decide, Or.inr (by unfold viewEdge; decide),
              fun hv => absurd hv (by decide)⟩
          | analyzed =>
            simp only [hst]
            exact ⟨by decide, Or.inr (by unfold viewEdge; decide),
              fun hv => absurd hv (by decide)⟩
          | verified => exact absurd hst hs
  | interpretOp configured outcome =>
    simp only [applyOp] at h
    unfold interpret at h
    simp only [Except.ok.injEq] at h
    subst h
    exact ⟨le_refl _, Or.inl rfl, fun hv => hv⟩

/-- The result of the C1 witness operation: a comment update on the
VERIFIED fixture request. -/
def commentedVerifiedRequest : LabRequest :=
  { verifiedRequest with comments := "post-verify note" }

/-- C1 witness: the forward-only theorem applied to a concrete successful
operation on a VERIFIED request. -/
theorem c1_status_forward_only_witness :
    statusRank verifiedRequest.status ≤ statusRank commentedVerifiedRequest.status ∧
    (commentedVerifiedRequest.status = verifiedRequest.status ∨
      viewEdge verifiedRequest.status commentedVerifiedRequest.status) ∧
    (verifiedRequest.status = Status.verified →
      commentedVerifiedRequest.status = Status.verified) :=
  c1_status_forward_only (.updateCommentOp "post-verify note")
    verifiedRequest commentedVerifiedRequest rfl

/-! ### Create-path fixtures -/

def demoPatient : Patient :=
  { id := "P001", name := "Ali", age := 30, gender := "Male", phone := "0300" }

def demoStore : Store :=
  { patients := [demoPatient]
    catalog := [cbcTest]
    requests := []
    today := "20240101"
    todayCount := 0
    freshUuid := "uuid-new" }

def demoPayment : Payment :=
  [("totalAmount", 750), ("discountAmount", 0), ("paidAmount", 500)]

/-- C7 counterexample: the claim says `Create` fails with NotFound when the
patient id is unknown.  The create path never produces a NotFound/404: the
serializer's `create` calls `Patient.objects.get`, whose `DoesNotExist`
exception no caller catches, so an unknown patient surfaces as an uncaught
exception (a server error), not as NotFound. -/
theorem c7_unknown_patient_counterexample :
    createLabRequest demoStore "P999" ["cbc"] demoPayment "" =
      .error (.doesNotExist "Patient" "P999") ∧
    (ApiError.doesNotExist "Patient" "P999").isNotFound = false :=
  ⟨rfl, rfl⟩

/-- C7 as amended: `Create` fails with ValidationError when `testIds` is
empty or does not match exactly as many catalog rows as it has entries (an
unknown id or a duplicated id both fail); fails with the uncaught
`Patient.DoesNotExist` error -- not NotFound -- when the patient id is
unknown, with nothing persisted; and on success creates a REGISTERED
request carrying the server-computed payment, the generated lab number,
the fresh identifier and a copy of the patient's name, appending exactly
that request to the store. -/
theorem c7_create_contract (st : Store) (patientId : String)
    (testIds : List String) (payment : Payment) (referredBy : String) :
    (testIds = [] →
      createLabRequest st patientId testIds payment referredBy =
        .error (.validation "At least one test must be selected.")) ∧
    (testIds ≠ [] →
      (st.catalog.filter (fun t => testIds.contains t.id)).length ≠ testIds.length →
      createLabRequest st patientId testIds payment referredBy =
        .error (.validation "One or more test IDs are invalid.")) ∧
    (testIds ≠ [] →
      (st.catalog.filter (fun t => testIds.contains t.id)).length = testIds.length →
      st.patients.find? (fun p => p.id = patientId) = none →
      createLabRequest st patientId testIds payment referredBy =
        .error (.doesNotExist "Patient" patientId)) ∧
    (∀ patient, testIds ≠ [] → patientId ≠ "" →
      (st.catalog.filter (fun t => testIds.contains t.id)).length = testIds.length →
      st.patients.find? (fun p => p.id = patientId) = some patient →
      ∃ r, createLabRequest st patientId testIds payment referredBy =
          .ok (r, { st with
                      requests := st.requests ++ [r]
                      todayCount := st.todayCount + 1 }) ∧
        r.status = .registered ∧
        r.payment = signalRecalcPayment (validatePayment payment) ∧
        r.patientName = patient.name ∧
        r.labNo = labNoFor st.today st.todayCount ∧
        r.id = st.freshUuid ∧
        r.referredBy = referredBy ∧
        r.tests = st.catalog.filter (fun t => testIds.contains t.id)) := by
  refine ⟨?_, ?_, ?_, ?_⟩
  · intro he
    subst he
    rfl
  · intro hne hlen
    unfold createLabRequest
    rw [if_neg (by simp [List.isEmpty_iff, hne])]
    dsimp only
    rw [if_pos hlen]
  · intro hne hlen hfind
    unfold createLabRequest
    rw [if_neg (by simp [List.isEmpty_iff, hne])]
    dsimp only
    rw [if_neg (not_ne_iff.mpr hlen), hfind]
  · intro patient hne hp hlen hfind
    unfold createLabRequest
    rw [if_neg (by simp [List.isEmpty_iff, hne])]
    dsimp only
    rw [if_neg (not_ne_iff.mpr hlen), hfind]
    dsimp only
    unfold modelSave
    dsimp only
    rw [if_pos rfl, if_pos (show patientId ≠ "" ∧ "" = "" from ⟨hp, rfl⟩)]
    dsimp only
    exact ⟨_, rfl, rfl, rfl, rfl, rfl, rfl, rfl, rfl⟩

/-- C7 witness: the contract applied to the demo store at a known patient
and test, yielding a successful creation. -/
theorem c7_create_contract_witness :
    (createLabRequest demoStore "P001" ["cbc"] demoPayment "Dr").isOk = true := by
  obtain ⟨r, hr, _⟩ :=
    (c7_create_contract demoStore "P001" ["cbc"] demoPayment "Dr").2.2.2
      demoPatient (by decide) (by decide) (by decide) rfl
  rw [hr]
  rfl

/-! ### Decimal formatting and string-order lemmas for patient ids -/

theorem natDigitsAux_small (fuel n : Nat) (acc : List Char) (hn : n < 10)
    (hf : 1 ≤ fuel) : natDigitsAux fuel n acc = Nat.digitChar n :: acc := by
  cases fuel with
  | zero => omega
  | succ f => simp [natDigitsAux, hn]

theorem natDigitsAux_two (fuel n : Nat) (acc : List Char) (h1 : 10 ≤ n)
    (h2 : n < 100) (hf : 2 ≤ fuel) :
    natDigitsAux fuel n acc =
      Nat.digitChar (n / 10) :: Nat.digitChar (n % 10) :: acc := by
  cases fuel with
  | zero => omega
  | succ f =>
    have hn : ¬ n < 10 := by omega
    simp only [natDigitsAux, hn, if_false]
    exact natDigitsAux_small f (n / 10) _ (by omega) (by omega)

theorem natDigits_lt10 (n : Nat) (h : n < 10) :
    natDigits n = [Nat.digitChar n] :=
  natDigitsAux_small (n + 1) n [] h (by omega)

theorem natDigits_lt100 (n : Nat) (h1 : 10 ≤ n) (h2 : n < 100) :
    natDigits n = [Nat.digitChar (n / 10), Nat.digitChar (n % 10)] :=
  natDigitsAux_two (n + 1) n [] h1 h2 (by omega)

theorem natDigits_lt1000 (n : Nat) (h1 : 100 ≤ n) (h2 : n < 1000) :
    natDigits n = [Nat.digitChar (n / 100), Nat.digitChar (n / 10 % 10),
      Nat.digitChar (n % 10)] := by
  unfold natDigits
  have hn : ¬ n < 10 := by omega
  cases hfuel : n + 1 with
  | zero => omega
  | succ f =>
    simp only [natDigitsAux, hn, if_false]
    have hdiv : n / 10 / 10 = n / 100 := by omega
    rw [natDigitsAux_two f (n / 10) _ (by omega) (by omega) (by omega), hdiv]

theorem padTo3_natDigits (n : Nat) (h : n < 1000) :
    padTo3 (natDigits n) = [Nat.digitChar (n / 100), Nat.digitChar (n / 10 % 10),
      Nat.digitChar (n % 10)] := by
  rcases Nat.lt_or_ge n 10 with h1 | h1
  · rw [natDigits_lt10 n h1]
    have e1 : n / 100 = 0 := by omega
    have e2 : n / 10 % 10 = 0 := by omega
    have e3 : n % 10 = n := by omega
    rw [e1, e2, e3]
    rfl
  · rcases Nat.lt_or_ge n 100 with h2 | h2
    · rw [natDigits_lt100 n h1 h2]
      have e1 : n / 100 = 0 := by omega
      have e2 : n / 10 % 10 = n / 10 := by omega
      rw [e1, e2]
      rfl
    · rw [natDigits_lt1000 n h2 h]
      rfl

theorem digitChar_toNat (d : Nat) (h : d < 10) :
    (Nat.digitChar d).toNat = 48 + d := by
  interval_cases d <;> rfl

theorem strLtChars_digits3 (x2 x1 x0 y2 y1 y0 : Nat) (hx2 : x2 < 10)
    (hx1 : x1 < 10) (hx0 : x0 < 10) (hy2 : y2 < 10) (hy1 : y1 < 10)
    (hy0 : y0 < 10) :
    (strLtChars [Nat.digitChar x2, Nat.digitChar x1, Nat.digitChar x0]
        [Nat.digitChar y2, Nat.digitChar y1, Nat.digitChar y0] = true) ↔
      100 * x2 + 10 * x1 + x0 < 100 * y2 + 10 * y1 + y0 := by
  simp only [strLtChars, digitChar_toNat _ hx2, digitChar_toNat _ hx1,
    digitChar_toNat _ hx0, digitChar_toNat _ hy2, digitChar_toNat _ hy1,
    digitChar_toNat _ hy0]
  split_ifs <;> simp <;> omega

theorem pIdStr_data (n : Nat) :
    (pIdStr n).data = Char.ofNat 80 :: padTo3 (natDigits n) := rfl

theorem pyStrLt_pIdStr (a b : Nat) (ha : a < 1000) (hb : b < 1000) :
    (pyStrLt (pIdStr a) (pIdStr b) = true) ↔ a < b := by
  unfold pyStrLt
  rw [pIdStr_data, pIdStr_data, padTo3_natDigits a ha, padTo3_natDigits b hb]
  have hP : strLtChars
      (Char.ofNat 80 :: [Nat.digitChar (a / 100), Nat.digitChar (a / 10 % 10),
        Nat.digitChar (a % 10)])
      (Char.ofNat 80 :: [Nat.digitChar (b / 100), Nat.digitChar (b / 10 % 10),
        Nat.digitChar (b % 10)]) =
      strLtChars [Nat.digitChar (a / 100), Nat.digitChar (a / 10 % 10),
        Nat.digitChar (a % 10)]
        [Nat.digitChar (b / 100), Nat.digitChar (b / 10 % 10),
          Nat.digitChar (b % 10)] := by
    simp [strLtChars]
  rw [hP, strLtChars_digits3 _ _ _ _ _ _ (by omega) (by omega) (by omega)
    (by omega) (by omega) (by omega)]
  omega

theorem strLtChars_irrefl (l : List Char) : strLtChars l l = false := by
  induction l with
  | nil => rfl
  | cons a as ih => simp [strLtChars, ih]

theorem pIdStr_ne (a b : Nat) (ha : a < 1000) (hb : b < 1000) (h : a ≠ b) :
    pIdStr a ≠ pIdStr b := by
  intro he
  rcases Nat.lt_or_ge a b with hab | hab
  · have ht := (pyStrLt_pIdStr a b ha hb).mpr hab
    rw [he] at ht
    unfold pyStrLt at ht
    rw [strLtChars_irrefl] at ht
    exact Bool.false_ne_true ht
  · have hba : b < a := by omega
    have ht := (pyStrLt_pIdStr b a hb ha).mpr hba
    rw [he] at ht
    unfold pyStrLt at ht
    rw [strLtChars_irrefl] at ht
    exact Bool.false_ne_true ht

theorem natMax_eq_right (a b : Nat) (h : a ≤ b) : Nat.max a b = b := by
  unfold Nat.max
  exact max_eq_right h

theorem natMax_eq_left (a b : Nat) (h : b ≤ a) : Nat.max a b = a := by
  unfold Nat.max
  exact max_eq_left h

theorem natMax_lt (a b c : Nat) (ha : a < c) (hb : b < c) : Nat.max a b < c := by
  unfold Nat.max
  exact max_lt ha hb

theorem le_natMax_left (a b : Nat) : a ≤ Nat.max a b := by
  unfold Nat.max
  exact le_max_left a b

theorem le_natMax_right (a b : Nat) : b ≤ Nat.max a b := by
  unfold Nat.max
  exact le_max_right a b

theorem foldl_max_strings (l : List Nat) (a : Nat)
    (h : ∀ k ∈ a :: l, k < 1000) :
    (l.map pIdStr).foldl (fun m s => if pyStrLt m s then s else m) (pIdStr a) =
      pIdStr (l.foldl Nat.max a) := by
  induction l generalizing a with
  | nil => rfl
  | cons b bs ih =>
    simp only [List.map_cons, List.foldl_cons]
    have ha : a < 1000 := h a (List.mem_cons_self a _)
    have hb : b < 1000 := h b (by simp)
    have hstep : (if pyStrLt (pIdStr a) (pIdStr b) then pIdStr b else pIdStr a) =
        pIdStr (Nat.max a b) := by
      by_cases hab : a < b
      · rw [if_pos ((pyStrLt_pIdStr a b ha hb).mpr hab),
          natMax_eq_right a b (by omega)]
      · have hf : pyStrLt (pIdStr a) (pIdStr b) = false := by
          rcases Bool.eq_false_or_eq_true (pyStrLt (pIdStr a) (pIdStr b)) with ht | hf
          · exact absurd ((pyStrLt_pIdStr a b ha hb).mp ht) hab
          · exact hf
        rw [hf]
        simp only [Bool.false_eq_true, if_false]
        rw [natMax_eq_left a b (by omega)]
    rw [hstep]
    exact ih (Nat.max a b) (by
      intro k hk
      rcases List.mem_cons.mp hk with rfl | hk
      · exact natMax_lt a b 1000 ha hb
      · exact h k (by simp [hk]))

theorem natMax_le (a b c : Nat) (ha : a ≤ c) (hb : b ≤ c) : Nat.max a b ≤ c := by
  unfold Nat.max
  exact max_le ha hb

theorem parseIntSuffix_pIdStr (n : Nat) (h : n < 1000) :
    parseIntSuffix (pIdStr n) = some n := by
  have h2 : n / 100 < 10 := by omega
  have h1 : n / 10 % 10 < 10 := by omega
  have h0 : n % 10 < 10 := by omega
  have hd : (pIdStr n).data.drop 1 =
      [Nat.digitChar (n / 100), Nat.digitChar (n / 10 % 10),
        Nat.digitChar (n % 10)] := by
    rw [pIdStr_data, padTo3_natDigits n h]
    rfl
  unfold parseIntSuffix
  rw [hd]
  have hall : [Nat.digitChar (n / 100), Nat.digitChar (n / 10 % 10),
      Nat.digitChar (n % 10)].all
        (fun c => decide (48 ≤ c.toNat ∧ c.toNat ≤ 57)) = true := by
    simp only [List.all_cons, List.all_nil, Bool.and_eq_true, decide_eq_true_eq]
    rw [digitChar_toNat (n / 100) h2, digitChar_toNat (n / 10 % 10) h1,
      digitChar_toNat (n % 10) h0]
    refine ⟨⟨?_, ?_⟩, ⟨?_, ?_⟩, ⟨?_, ?_⟩, trivial⟩ <;> omega
  rw [if_neg (by simp), if_pos hall]
  simp only [List.foldl_cons, List.foldl_nil]
  rw [digitChar_toNat (n / 100) h2, digitChar_toNat (n / 10 % 10) h1,
    digitChar_toNat (n % 10) h0]
  congr 1
  have hdd : n / 10 / 10 = n / 100 := by omega
  omega

theorem mem_le_foldl_max (l : List Nat) (a : Nat) :
    ∀ k ∈ a :: l, k ≤ l.foldl Nat.max a := by
  induction l generalizing a with
  | nil =>
    intro k hk
    rcases List.mem_cons.mp hk with rfl | hk
    · exact le_refl k
    · simp at hk
  | cons b bs ih =>
    intro k hk
    rw [List.foldl_cons]
    rcases List.mem_cons.mp hk with rfl | hk
    · exact le_trans (le_natMax_left k b) (ih (Nat.max k b) _ (by simp))
    · rcases List.mem_cons.mp hk with rfl | hk
      · exact le_trans (le_natMax_right a k) (ih (Nat.max a k) _ (by simp))
      · exact ih (Nat.max a b) k (List.mem_cons_of_mem _ hk)

theorem foldl_max_le (l : List Nat) (a c : Nat) (h : ∀ k ∈ a :: l, k ≤ c) :
    l.foldl Nat.max a ≤ c := by
  induction l generalizing a with
  | nil => exact h a (by simp)
  | cons b bs ih =>
    rw [List.foldl_cons]
    apply ih
    intro k hk
    rcases List.mem_cons.mp hk with rfl | hk
    · exact natMax_le a b c (h a (by simp)) (h b (by simp))
    · exact h k (by simp [hk])

/-- C9 counterexample: the claim says the new patient id uses the highest
numeric suffix among existing ids, plus one, and is therefore distinct from
every existing id.  `Patient.save` actually takes the id that is greatest
in string order: with `P999` and `P1000` both present (a state the
generator itself produces after the thousandth patient), the string maximum
is `P999`, so the next id is the already-existing `P1000`, not `P1001`. -/
theorem c9_lexicographic_counterexample :
    genPatientId ["P999", "P1000"] = "P1000" ∧
    "P1000" ∈ ["P999", "P1000"] ∧
    "P1000" ≠ pIdStr (1000 + 1) :=
  ⟨rfl, by decide, by decide⟩

/-- C9 as amended: the new id is `P{n:03d}` with `n = 1` on an empty store
and otherwise the numeric suffix of the *lexicographically* greatest
existing id, plus one.  While every existing id is `P{k:03d}` with
`1 ≤ k ≤ 999`, the lexicographic maximum coincides with the numeric
maximum, so n really is the highest numeric suffix plus one, and while that
maximum is below 999 the new id is distinct from every existing one; the
scheme breaks down past `P999`. -/
theorem c9_patient_id_generation (a : Nat) (l : List Nat)
    (h : ∀ k ∈ a :: l, 1 ≤ k ∧ k ≤ 999) :
    genPatientId [] = pIdStr 1 ∧
    genPatientId ((a :: l).map pIdStr) = pIdStr (l.foldl Nat.max a + 1) ∧
    (l.foldl Nat.max a < 999 →
      pIdStr (l.foldl Nat.max a + 1) ∉ (a :: l).map pIdStr) := by
  have hlt : ∀ k ∈ a :: l, k < 1000 := fun k hk => by
    have := h k hk
    omega
  have hM : l.foldl Nat.max a < 1000 := by
    have := foldl_max_le l a 999 (fun k hk => (h k hk).2)
    omega
  have hlast : lastPatientId ((a :: l).map pIdStr) =
      some (pIdStr (l.foldl Nat.max a)) := by
    simp only [List.map_cons]
    unfold lastPatientId
    dsimp only
    rw [foldl_max_strings l a hlt]
  refine ⟨rfl, ?_, ?_⟩
  · unfold genPatientId
    rw [hlast]
    dsimp only
    rw [parseIntSuffix_pIdStr _ hM]
  · intro hM999 hmem
    obtain ⟨k, hk, heq⟩ := List.mem_map.mp hmem
    exact pIdStr_ne (l.foldl Nat.max a + 1) k (by omega) (hlt k hk)
      (by have := mem_le_foldl_max l a k hk; omega) heq.symm

/-- C9 witness: the amended statement at the concrete store `[P001, P002]`:
the next id is `P003` and is fresh. -/
theorem c9_patient_id_generation_witness :
    genPatientId ((1 :: [2]).map pIdStr) = pIdStr ([2].foldl Nat.max 1 + 1) ∧
    pIdStr ([2].foldl Nat.max 1 + 1) ∉ (1 :: [2]).map pIdStr :=
  ⟨(c9_patient_id_generation 1 [2] (by decide)).2.1,
   (c9_patient_id_generation 1 [2] (by decide)).2.2 (by decide)⟩

end LIMS
